import Mathlib

/-!
Shallow embedding of the Virtual-Lab heat-transfer pipeline
(`simulation.py`, `post_process.py`) and proofs about it.

Modelling conventions:
* Python strings are Lean `String`s; the Python string primitives used by the
  code (`strip`, `startswith`, `split`, `join`, `float`) are re-implemented
  below on `List Char` so that they compute by structural recursion.
* Python floats are modelled as exact rationals `ℚ`; `float(s)` is modelled on
  finite decimal numerals (optional sign, digits, optional dot, optional
  exponent), which covers every numeral the pipeline manipulates.
* A file is its list of lines (without trailing newline characters); a case
  directory is the list of its `os.listdir` entries.
* `list.sort(key=float)` (a stable sort) is modelled by the stable
  `List.insertionSort` on the same key.
-/

namespace HeatLab

/-! ### Python string primitives -/

/-- Characters stripped by Python `str.strip()` from both ends. -/
def pyStripChars (cs : List Char) : List Char :=
  ((cs.dropWhile Char.isWhitespace).reverse.dropWhile Char.isWhitespace).reverse

/-- Python `s.strip()`. -/
def pyStrip (s : String) : String :=
  ⟨pyStripChars s.data⟩

/-- Python `s.startswith(p)`. -/
def pyStartsWith (s p : String) : Bool :=
  p.data.isPrefixOf s.data

/-- Split a character list at every occurrence of `sep`
(the semantics of Python `s.split(sep)` for a one-character separator). -/
def splitOnChar (sep : Char) : List Char → List (List Char)
  | [] => [[]]
  | c :: cs =>
    if c = sep then [] :: splitOnChar sep cs
    else
      match splitOnChar sep cs with
      | [] => [[c]]
      | g :: gs => (c :: g) :: gs

/-- Helper for `pySplit`: accumulates the current (reversed) token. -/
def pySplitAux : List Char → List Char → List String
  | [], acc => if acc.isEmpty then [] else [⟨acc.reverse⟩]
  | c :: cs, acc =>
    if c.isWhitespace then
      if acc.isEmpty then pySplitAux cs []
      else (⟨acc.reverse⟩ : String) :: pySplitAux cs []
    else pySplitAux cs (c :: acc)

/-- Python `s.split()` with no argument: split on runs of whitespace,
discarding empty tokens. -/
def pySplit (s : String) : List String :=
  pySplitAux s.data []

/-- Python `sep.join(xs)`. -/
def pyJoin (sep : String) : List String → String
  | [] => ""
  | [x] => x
  | x :: y :: ys => x ++ sep ++ pyJoin sep (y :: ys)

/-! ### Python `float` on finite decimal numerals, over `ℚ` -/

/-- Numeric value of a list of decimal digit characters (`0` when empty). -/
def digitsToNat (cs : List Char) : Nat :=
  cs.foldl (fun a c => a * 10 + (c.toNat - 48)) 0

/-- Nonempty and all decimal digits. -/
def allDigits (cs : List Char) : Bool :=
  !cs.isEmpty && cs.all Char.isDigit

/-- Value of an unsigned mantissa: `digits`, `digits.digits`, `.digits` or
`digits.` . -/
def mantissaVal (cs : List Char) : Option ℚ :=
  match splitOnChar '.' cs with
  | [a] => if allDigits a then some (digitsToNat a : ℚ) else none
  | [a, b] =>
    if !(a.isEmpty && b.isEmpty) && a.all Char.isDigit && b.all Char.isDigit then
      some ((digitsToNat a : ℚ) + (digitsToNat b : ℚ) / (10 : ℚ) ^ b.length)
    else none
  | _ => none

/-- Value of a signed exponent part. -/
def expVal : List Char → Option ℤ
  | '-' :: ds => if allDigits ds then some (-(digitsToNat ds : ℤ)) else none
  | '+' :: ds => if allDigits ds then some (digitsToNat ds : ℤ) else none
  | ds => if allDigits ds then some (digitsToNat ds : ℤ) else none

/-- `10 ^ z` over `ℚ` for an integer exponent. -/
def zpow10 (z : ℤ) : ℚ :=
  if 0 ≤ z then (10 : ℚ) ^ z.toNat else 1 / (10 : ℚ) ^ (-z).toNat

/-- Model of Python `float(s)` on finite decimal numerals (optional sign,
decimal mantissa, optional `e`/`E` exponent), returning `none` exactly when
`float(s)` raises `ValueError` on such strings. -/
def pyFloat (s : String) : Option ℚ :=
  let cs := pyStripChars s.data
  let sgn : ℚ := match cs with
    | '-' :: _ => -1
    | _ => 1
  let body : List Char := match cs with
    | '-' :: rest => rest
    | '+' :: rest => rest
    | _ => cs
  let body := body.map fun c => if c = 'E' then 'e' else c
  match splitOnChar 'e' body with
  | [m] => (mantissaVal m).map fun q => sgn * q
  | [m, e] =>
    match mantissaVal m, expVal e with
    | some q, some z => some (sgn * q * zpow10 z)
    | _, _ => none
  | _ => none

/-! ### `post_process.py`: Nusselt-number extraction -/

/-- `np.mean` on a list of rationals. -/
def meanQ (xs : List ℚ) : ℚ :=
  xs.sum / (xs.length : ℚ)

/-- The line loop of `parse_h_values`: `data_started` flag, a line stripping
to `(` starts the data, a line stripping to `)` stops, every line in between
is kept when it parses as a float and skipped otherwise. -/
def parseHLoop : Bool → List String → List ℚ
  | _, [] => []
  | started, line :: rest =>
    if pyStrip line = "(" then parseHLoop true rest
    else if pyStrip line = ")" then []
    else if started then
      match pyFloat (pyStrip line) with
      | some v => v :: parseHLoop started rest
      | none => parseHLoop started rest
    else parseHLoop started rest

/-- `parse_h_values` applied to the lines of an (existing) field file. -/
def parse_h_values (lines : List String) : List ℚ :=
  parseHLoop false lines

/-- The per-timestep body of the CSV loop in `post_process`: parse the field
file, and when at least one value parsed, emit the row
`(t, avg_h, avg_h * L / k)`. -/
def timestepRow (t : String) (lines : List String) (L k : ℚ) :
    Option (String × ℚ × ℚ) :=
  if (parse_h_values lines).isEmpty then none
  else some (t, meanQ (parse_h_values lines), meanQ (parse_h_values lines) * L / k)

/-- One entry of `os.listdir(case_dir)`: its name, whether it is a directory,
and, when its `wallHeatTransferCoeff` file exists, that file's lines. -/
structure DirEntry where
  name : String
  isDir : Bool
  field : Option (List String)
deriving DecidableEq, Repr

/-- Remove the first `'.'` of a character list, as Python
`d.replace('.', '', 1)`. -/
def removeFirstDot : List Char → List Char
  | [] => []
  | c :: cs => if c = '.' then cs else c :: removeFirstDot cs

/-- `d.replace('.', '', 1).isdigit()`: after deleting at most one dot, the
name is a nonempty string of decimal digits. -/
def isTimeName (d : String) : Bool :=
  let cs := removeFirstDot d.data
  !cs.isEmpty && cs.all Char.isDigit

/-- The filter of the time-directory discovery: a directory entry whose name
passes `isTimeName`. -/
def timeDirPred (e : DirEntry) : Bool :=
  e.isDir && isTimeName e.name

/-- The sort key `float(d)` used by `time_dirs.sort(key=float)`. -/
def timeKey (d : String) : ℚ :=
  (pyFloat d).getD 0

/-- Discovery and ordering of time directories: filter `os.listdir` by
`timeDirPred`, then sort stably and ascending by `timeKey`. -/
def sortedTimeDirs (entries : List DirEntry) : List DirEntry :=
  List.insertionSort (fun a b => timeKey a.name ≤ timeKey b.name)
    (entries.filter timeDirPred)

/-- The CSV row contributed by one time directory: skipped when the field
file is absent (`os.path.exists` fails) and otherwise given by
`timestepRow`. -/
def rowOfEntry (e : DirEntry) (L k : ℚ) : Option (String × ℚ × ℚ) :=
  match e.field with
  | none => none
  | some lines => timestepRow e.name lines L k

/-- Content of the written `nusselt_numbers.csv`: its header line and its
data rows `(time, average h, nusselt)`. -/
structure CsvFile where
  header : String
  rows : List (String × ℚ × ℚ)
deriving DecidableEq, Repr

/-- Observable outcome of the Nusselt-extraction part of `post_process`:
whether the no-time-directories error was reported, the path and content of
the written CSV file (`none` when the file was never opened), and the Python
return value of the function. -/
structure PPResult where
  noTimeDirs : Bool
  output : Option (String × CsvFile)
  ret : Option String
deriving DecidableEq, Repr

/-- The Nusselt-extraction stage of `post_process(case_dir, assets_dir,
L_char, k_fluid)`, over the `os.listdir` entries of the case directory. -/
def post_process (assets_dir : String) (entries : List DirEntry) (L k : ℚ) :
    PPResult :=
  let output_file := assets_dir ++ "/nusselt_numbers.csv"
  let tds := sortedTimeDirs entries
  if tds.isEmpty then
    { noTimeDirs := true, output := none, ret := none }
  else
    { noTimeDirs := false
      output := some (output_file,
        ⟨"Time,Average_h,Nusselt", tds.filterMap fun e => rowOfEntry e L k⟩)
      ret := none }

/-- Outcome of running `post_process.py` as a script: the process exit code
and, when `post_process` ran, its result. -/
structure CliOutcome where
  exitCode : Nat
  result : Option PPResult
deriving DecidableEq, Repr

/-- The `__main__` block of `post_process.py`: with `len(sys.argv) != 5` the
script exits with code 1 before any processing; otherwise the two numeric
arguments are parsed with `float` (an unparsable argument raises, exiting
with code 1) and `post_process` runs. -/
def cliMain (argv : List String) (entries : List DirEntry) : CliOutcome :=
  if argv.length ≠ 5 then ⟨1, none⟩
  else
    match pyFloat (argv.getD 3 ""), pyFloat (argv.getD 4 "") with
    | some L, some k => ⟨0, some (post_process (argv.getD 2 "") entries L k)⟩
    | _, _ => ⟨1, none⟩

/-! ### `simulation.py`: parameter injection and solver invocation -/

/-- The five recognized scalar parameters handed to
`create_case_from_template`. -/
structure Inputs where
  startTime : String
  endTime : String
  deltaT : String
  mu : String
  Pr : String
deriving DecidableEq, Repr

/-- The per-line body of `_update_control_dict`: a line whose stripped text
starts with `startTime`, `endTime` or `deltaT` is replaced wholesale by a
fixed-format line; every other line is kept verbatim. -/
def updateControlLine (inputs : Inputs) (line : String) : String :=
  if pyStartsWith (pyStrip line) "startTime" then
    "startTime       " ++ inputs.startTime ++ ";"
  else if pyStartsWith (pyStrip line) "endTime" then
    "endTime         " ++ inputs.endTime ++ ";"
  else if pyStartsWith (pyStrip line) "deltaT" then
    "deltaT          " ++ inputs.deltaT ++ ";"
  else line

/-- `_update_control_dict` on the lines of `system/controlDict`. -/
def update_control_dict (lines : List String) (inputs : Inputs) : List String :=
  lines.map (updateControlLine inputs)

/-- The per-line body of `_update_physical_properties`: a line whose stripped
text starts with `"mu "` or `"Pr "` is split into whitespace tokens, the last
token is replaced by the value followed by `;`, and the tokens are rejoined
with single spaces; every other line is kept verbatim. -/
def updatePhysLine (inputs : Inputs) (line : String) : String :=
  if pyStartsWith (pyStrip line) "mu " then
    pyJoin " " ((pySplit line).dropLast ++ [inputs.mu ++ ";"])
  else if pyStartsWith (pyStrip line) "Pr " then
    pyJoin " " ((pySplit line).dropLast ++ [inputs.Pr ++ ";"])
  else line

/-- `_update_physical_properties` on the lines of
`constant/physicalProperties`. -/
def update_physical_properties (lines : List String) (inputs : Inputs) :
    List String :=
  lines.map (updatePhysLine inputs)

/-- The parameter-injection step of `create_case_from_template`: rewrite the
copied `controlDict` and `physicalProperties` files. -/
def createCaseInjection (controlDict physicalProperties : List String)
    (inputs : Inputs) : List String × List String :=
  (update_control_dict controlDict inputs,
   update_physical_properties physicalProperties inputs)

/-- Whether a `controlDict` line is matched by `_update_control_dict`. -/
def controlKeyMatch (line : String) : Bool :=
  pyStartsWith (pyStrip line) "startTime" || pyStartsWith (pyStrip line) "endTime"
    || pyStartsWith (pyStrip line) "deltaT"

/-- Whether a `physicalProperties` line is matched by
`_update_physical_properties`. -/
def physKeyMatch (line : String) : Bool :=
  pyStartsWith (pyStrip line) "mu " || pyStartsWith (pyStrip line) "Pr "

/-- The parameter value injected into a matched `controlDict` line. -/
def controlValue (line : String) (inputs : Inputs) : String :=
  if pyStartsWith (pyStrip line) "startTime" then inputs.startTime
  else if pyStartsWith (pyStrip line) "endTime" then inputs.endTime
  else inputs.deltaT

/-- The parameter value injected into a matched `physicalProperties` line. -/
def physValue (line : String) (inputs : Inputs) : String :=
  if pyStartsWith (pyStrip line) "mu " then inputs.mu
  else inputs.Pr

/-- Leading whitespace of a line. -/
def leadingWS (s : String) : List Char :=
  s.data.takeWhile Char.isWhitespace

/-- Observable behaviour of the spawned solver child process: the lines read
from its standard output with standard error merged into it
(`stderr=subprocess.STDOUT`), and the exit status that `process.wait()`
observes. -/
structure SolverProcess where
  mergedOutput : List String
  exitStatus : Int
deriving DecidableEq, Repr

/-- `run_simulation`: accumulate the merged output stream line by line into
`logs`, wait for termination, and return `logs`. -/
def run_simulation (p : SolverProcess) : String :=
  p.mergedOutput.foldl (fun logs line => logs ++ line) ""

/-! ### Helper lemmas -/

/-- Lines before the opening parenthesis that strip to neither `(` nor `)`
are ignored by the `parse_h_values` loop. -/
theorem parseHLoop_skip (rest : List String) :
    ∀ pre : List String, (∀ l ∈ pre, pyStrip l ≠ "(" ∧ pyStrip l ≠ ")") →
      parseHLoop false (pre ++ rest) = parseHLoop false rest := by
  intro pre
  induction pre with
  | nil => intro _; rfl
  | cons l pre ih =>
    intro h
    obtain ⟨h1, h2⟩ := h l (List.mem_cons_self l pre)
    simp only [List.cons_append, parseHLoop, if_neg h1, if_neg h2, if_neg Bool.false_ne_true]
    exact ih fun x hx => h x (List.mem_cons_of_mem l hx)

/-- After the opening parenthesis, the loop collects exactly the body lines
that parse as floats, stopping at the closing parenthesis. -/
theorem parseHLoop_body (rest : List String) :
    ∀ body : List String, (∀ l ∈ body, pyStrip l ≠ "(" ∧ pyStrip l ≠ ")") →
      parseHLoop true (body ++ ")" :: rest)
        = body.filterMap fun l => pyFloat (pyStrip l) := by
  intro body
  induction body with
  | nil =>
    intro _
    have hp : pyStrip ")" = ")" := by decide
    simp [parseHLoop, hp]
  | cons l body ih =>
    intro h
    obtain ⟨h1, h2⟩ := h l (List.mem_cons_self l body)
    have ih' := ih fun x hx => h x (List.mem_cons_of_mem l hx)
    cases hf : pyFloat (pyStrip l) with
    | none => simp [parseHLoop, if_neg h1, if_neg h2, hf, ih']
    | some v => simp [parseHLoop, if_neg h1, if_neg h2, hf, ih']

/-- `getD` through `List.map` at an in-range index. -/
theorem getD_map_lt {α β : Type} (f : α → β) (l : List α) (i : ℕ)
    (hi : i < l.length) (d : α) (d' : β) :
    (l.map f).getD i d' = f (l.getD i d) := by
  rw [List.getD_eq_getElem?_getD, List.getD_eq_getElem?_getD, List.getElem?_map,
    List.getElem?_eq_getElem hi]
  rfl

/-- An unmatched `controlDict` line passes through unchanged. -/
theorem updateControlLine_unmatched (inputs : Inputs) (line : String)
    (h : controlKeyMatch line = false) :
    updateControlLine inputs line = line := by
  simp only [controlKeyMatch, Bool.or_eq_false_iff] at h
  simp [updateControlLine, h.1.1, h.1.2, h.2]

/-- An unmatched `physicalProperties` line passes through unchanged. -/
theorem updatePhysLine_unmatched (inputs : Inputs) (line : String)
    (h : physKeyMatch line = false) :
    updatePhysLine inputs line = line := by
  simp only [physKeyMatch, Bool.or_eq_false_iff] at h
  simp [updatePhysLine, h.1, h.2]

/-- `pyJoin` of a list ending in `x` ends in `x`. -/
theorem pyJoin_append_last :
    ∀ (xs : List String) (sep x : String), ∃ p, pyJoin sep (xs ++ [x]) = p ++ x
  | [], _, _ => ⟨"", rfl⟩
  | [y], sep, x => ⟨y ++ sep, rfl⟩
  | y :: z :: zs, sep, x => by
    obtain ⟨p, hp⟩ := pyJoin_append_last (z :: zs) sep x
    refine ⟨y ++ sep ++ p, ?_⟩
    show y ++ sep ++ pyJoin sep ((z :: zs) ++ [x]) = y ++ sep ++ p ++ x
    rw [hp, String.append_assoc (y ++ sep) p x]

/-- A matched `controlDict` line is rewritten to end with the injected value
followed by the semicolon. -/
theorem updateControlLine_matched (inputs : Inputs) (line : String)
    (h : controlKeyMatch line = true) :
    ∃ p, updateControlLine inputs line = p ++ (controlValue line inputs ++ ";") := by
  unfold updateControlLine controlValue
  by_cases h1 : pyStartsWith (pyStrip line) "startTime" = true
  · exact ⟨"startTime       ", by simp [h1, String.append_assoc]⟩
  · by_cases h2 : pyStartsWith (pyStrip line) "endTime" = true
    · exact ⟨"endTime         ", by simp [h1, h2, String.append_assoc]⟩
    · have h3 : pyStartsWith (pyStrip line) "deltaT" = true := by
        simp only [controlKeyMatch, Bool.or_eq_true] at h
        rcases h with (h | h) | h
        · exact absurd h h1
        · exact absurd h h2
        · exact h
      exact ⟨"deltaT          ", by simp [h1, h2, h3, String.append_assoc]⟩

/-- A matched `physicalProperties` line is rewritten to end with the injected
value followed by the semicolon. -/
theorem updatePhysLine_matched (inputs : Inputs) (line : String)
    (h : physKeyMatch line = true) :
    ∃ p, updatePhysLine inputs line = p ++ (physValue line inputs ++ ";") := by
  unfold updatePhysLine physValue
  by_cases h1 : pyStartsWith (pyStrip line) "mu " = true
  · obtain ⟨p, hp⟩ := pyJoin_append_last (pySplit line).dropLast " " (inputs.mu ++ ";")
    refine ⟨p, ?_⟩
    simp only [h1, if_true]
    exact hp
  · have h2 : pyStartsWith (pyStrip line) "Pr " = true := by
      simp only [physKeyMatch, Bool.or_eq_true] at h
      rcases h with h | h
      · exact absurd h h1
      · exact h
    obtain ⟨p, hp⟩ := pyJoin_append_last (pySplit line).dropLast " " (inputs.Pr ++ ";")
    refine ⟨p, ?_⟩
    simp only [h1, h2, if_true, if_false]
    exact hp

/-- With no entry passing the time-directory filter, discovery is empty. -/
theorem sortedTimeDirs_eq_nil (entries : List DirEntry)
    (h : ∀ e ∈ entries, timeDirPred e = false) :
    sortedTimeDirs entries = [] := by
  unfold sortedTimeDirs
  have hf : entries.filter timeDirPred = [] := by
    rw [List.filter_eq_nil_iff]
    intro e he
    simp [h e he]
  rw [hf]
  rfl

/-- With at least one entry passing the time-directory filter, discovery is
nonempty. -/
theorem sortedTimeDirs_ne_nil (entries : List DirEntry)
    (h : ∃ e ∈ entries, timeDirPred e = true) :
    sortedTimeDirs entries ≠ [] := by
  obtain ⟨e, he, hp⟩ := h
  have h1 : e ∈ entries.filter timeDirPred := List.mem_filter.mpr ⟨he, hp⟩
  have h2 : e ∈ sortedTimeDirs entries :=
    (List.perm_insertionSort _ _).mem_iff.mpr h1
  exact List.ne_nil_of_mem h2

/-- A produced CSV row carries the name of the entry it came from. -/
theorem rowOfEntry_fst (e : DirEntry) (L k : ℚ) (b : String × ℚ × ℚ)
    (hb : rowOfEntry e L k = some b) : b.1 = e.name := by
  cases hf : e.field with
  | none => simp [rowOfEntry, hf] at hb
  | some lines =>
    simp only [rowOfEntry, hf, timestepRow] at hb
    split at hb
    · exact absurd hb (by simp)
    · cases hb
      rfl

/-- Entries without a field file contribute nothing: the emitted rows are
those of the field-bearing entries alone. -/
theorem filterMap_rowOf_filter (l : List DirEntry) (L k : ℚ) :
    l.filterMap (fun e => rowOfEntry e L k)
      = (l.filter fun e => e.field.isSome).filterMap fun e => rowOfEntry e L k := by
  induction l with
  | nil => rfl
  | cons e l ih =>
    cases hf : e.field with
    | none =>
      have hrow : rowOfEntry e L k = none := by simp [rowOfEntry, hf]
      simp [List.filterMap_cons, List.filter_cons, hf, hrow, ih]
    | some lines =>
      simp [List.filterMap_cons, List.filter_cons, hf, ih]

/-- A string whose own leading whitespace is empty and which is nonempty
keeps the leading whitespace of any append empty. -/
theorem leadingWS_append_left (s t : String) (h1 : s.data ≠ [])
    (h2 : leadingWS s = []) : leadingWS (s ++ t) = [] := by
  unfold leadingWS at *
  rw [String.data_append]
  cases hs : s.data with
  | nil => exact absurd hs h1
  | cons c cs =>
    rw [hs] at h2
    rw [List.takeWhile_cons] at h2
    rw [List.cons_append, List.takeWhile_cons]
    by_cases hc : c.isWhitespace = true
    · rw [if_pos hc] at h2
      exact absurd h2 (by simp)
    · rw [if_neg hc]

/-- A matched `controlDict` line is rewritten with no leading whitespace,
whatever the original line's indentation was. -/
theorem leadingWS_control_matched (inputs : Inputs) (line : String)
    (h : controlKeyMatch line = true) :
    leadingWS (updateControlLine inputs line) = [] := by
  unfold updateControlLine
  by_cases h1 : pyStartsWith (pyStrip line) "startTime" = true
  · simp only [h1, if_true]
    refine leadingWS_append_left _ ";" ?_ ?_
    · rw [String.data_append]
      simp [show ("startTime       ").data
          = 's' :: ("tartTime       ").data from rfl]
    · exact leadingWS_append_left _ _ (by decide) (by decide)
  · by_cases h2 : pyStartsWith (pyStrip line) "endTime" = true
    · simp only [h1, h2, if_true, if_false]
      refine leadingWS_append_left _ ";" ?_ ?_
      · rw [String.data_append]
        simp [show ("endTime         ").data
            = 'e' :: ("ndTime         ").data from rfl]
      · exact leadingWS_append_left _ _ (by decide) (by decide)
    · have h3 : pyStartsWith (pyStrip line) "deltaT" = true := by
        simp only [controlKeyMatch, Bool.or_eq_true] at h
        rcases h with (h | h) | h
        · exact absurd h h1
        · exact absurd h h2
        · exact h
      simp only [h1, h2, h3, if_true, if_false]
      refine leadingWS_append_left _ ";" ?_ ?_
      · rw [String.data_append]
        simp [show ("deltaT          ").data
            = 'd' :: ("eltaT          ").data from rfl]
      · exact leadingWS_append_left _ _ (by decide) (by decide)

/-- A matched `physicalProperties` line is rebuilt by single-space-joining
its whitespace tokens, the last replaced by the value plus semicolon. -/
theorem updatePhysLine_matched_eq (inputs : Inputs) (line : String)
    (h : physKeyMatch line = true) :
    updatePhysLine inputs line
      = pyJoin " " ((pySplit line).dropLast ++ [physValue line inputs ++ ";"]) := by
  unfold updatePhysLine physValue
  by_cases h1 : pyStartsWith (pyStrip line) "mu " = true
  · simp [h1]
  · have h2 : pyStartsWith (pyStrip line) "Pr " = true := by
      simp only [physKeyMatch, Bool.or_eq_true] at h
      rcases h with h | h
      · exact absurd h h1
      · exact h
    simp [h1, h2]

/-- A nonempty list has `isEmpty = false`. -/
theorem isEmpty_false_of_ne_nil {α : Type} {l : List α} (h : l ≠ []) :
    l.isEmpty = false := by
  cases l with
  | nil => exact absurd rfl h
  | cons a l => rfl

/-! ### Claims -/

/-- C1: for a field file whose body is a `(` line, value lines, then a `)`
line, `parse_h_values` collects exactly the in-between lines that parse as
floats (non-numeric lines are skipped), and the derived row has
`average = mean(values)` and `nusselt = average * L / k`. -/
theorem claim_C1_field_average_nusselt (pre body post : List String)
    (t : String) (L k : ℚ)
    (hpre : ∀ l ∈ pre, pyStrip l ≠ "(" ∧ pyStrip l ≠ ")")
    (hbody : ∀ l ∈ body, pyStrip l ≠ "(" ∧ pyStrip l ≠ ")") :
    parse_h_values (pre ++ "(" :: (body ++ ")" :: post))
        = body.filterMap (fun l => pyFloat (pyStrip l))
      ∧ (body.filterMap (fun l => pyFloat (pyStrip l)) ≠ [] →
          timestepRow t (pre ++ "(" :: (body ++ ")" :: post)) L k
            = some (t, meanQ (body.filterMap fun l => pyFloat (pyStrip l)),
                meanQ (body.filterMap fun l => pyFloat (pyStrip l)) * L / k)) := by
  have hopen : pyStrip "(" = "(" := by decide
  have h1 : parse_h_values (pre ++ "(" :: (body ++ ")" :: post))
      = body.filterMap fun l => pyFloat (pyStrip l) := by
    unfold parse_h_values
    rw [parseHLoop_skip ("(" :: (body ++ ")" :: post)) pre hpre]
    have hstep : parseHLoop false ("(" :: (body ++ ")" :: post))
        = parseHLoop true (body ++ ")" :: post) := by
      simp [parseHLoop, hopen]
    rw [hstep, parseHLoop_body post body hbody]
  refine ⟨h1, fun hne => ?_⟩
  unfold timestepRow
  rw [h1, if_neg (by simpa using hne)]

/-- C1 witness: the spec's end-to-end example, field body
`( 10.0 20.0 foo 30.0 )` with `L = 0.2` and `k = 0.6`, gives the values
`[10, 20, 30]`, average `20` and Nusselt number `20/3`. -/
theorem claim_C1_field_average_nusselt_witness :
    parse_h_values ["(", "10.0", "20.0", "foo", "30.0", ")"] = [10, 20, 30]
      ∧ timestepRow "0.5" ["(", "10.0", "20.0", "foo", "30.0", ")"]
          (2/10) (6/10) = some ("0.5", 20, 20/3) := by
  have e : (["10.0", "20.0", "foo", "30.0"] : List String).filterMap
      (fun l => pyFloat (pyStrip l)) = [10, 20, 30] := by
    simp [pyFloat, pyStrip, pyStripChars, mantissaVal, splitOnChar, allDigits,
      digitsToNat]
  have h := claim_C1_field_average_nusselt [] ["10.0", "20.0", "foo", "30.0"] []
    "0.5" (2/10) (6/10) (by simp) (by decide)
  have hne : (["10.0", "20.0", "foo", "30.0"] : List String).filterMap
      (fun l => pyFloat (pyStrip l)) ≠ [] := by rw [e]; simp
  have h2 := h.2 hne
  rw [e] at h2
  have hmean : meanQ [10, 20, 30] = 20 := by
    simp [meanQ]
    norm_num
  rw [hmean] at h2
  refine ⟨by have h1 := h.1; rw [e] at h1; exact h1, ?_⟩
  rw [show timestepRow "0.5" ["(", "10.0", "20.0", "foo", "30.0", ")"]
        (2/10) (6/10)
      = timestepRow "0.5" ([] ++ "(" :: (["10.0", "20.0", "foo", "30.0"]
        ++ ")" :: [])) (2/10) (6/10) from rfl, h2]
  norm_num

/-- C2: parameter injection by `createCase` preserves the line count of both
configuration files, copies every unmatched line through byte-for-byte, and
leaves every matched line containing exactly the injected value followed by
the semicolon terminator (as its trailing segment). -/
theorem claim_C2_injection_frame (cd pp : List String) (inputs : Inputs) :
    (createCaseInjection cd pp inputs).1.length = cd.length
      ∧ (createCaseInjection cd pp inputs).2.length = pp.length
      ∧ (∀ i, i < cd.length → controlKeyMatch (cd.getD i "") = false →
          (createCaseInjection cd pp inputs).1.getD i "" = cd.getD i "")
      ∧ (∀ i, i < pp.length → physKeyMatch (pp.getD i "") = false →
          (createCaseInjection cd pp inputs).2.getD i "" = pp.getD i "")
      ∧ (∀ i, i < cd.length → controlKeyMatch (cd.getD i "") = true →
          ∃ p, (createCaseInjection cd pp inputs).1.getD i ""
            = p ++ (controlValue (cd.getD i "") inputs ++ ";"))
      ∧ (∀ i, i < pp.length → physKeyMatch (pp.getD i "") = true →
          ∃ p, (createCaseInjection cd pp inputs).2.getD i ""
            = p ++ (physValue (pp.getD i "") inputs ++ ";")) := by
  refine ⟨List.length_map cd _, List.length_map pp _, ?_, ?_, ?_, ?_⟩
  · intro i hi hm
    rw [show (createCaseInjection cd pp inputs).1
        = cd.map (updateControlLine inputs) from rfl,
      getD_map_lt (updateControlLine inputs) cd i hi "" ""]
    exact updateControlLine_unmatched inputs _ hm
  · intro i hi hm
    rw [show (createCaseInjection cd pp inputs).2
        = pp.map (updatePhysLine inputs) from rfl,
      getD_map_lt (updatePhysLine inputs) pp i hi "" ""]
    exact updatePhysLine_unmatched inputs _ hm
  · intro i hi hm
    rw [show (createCaseInjection cd pp inputs).1
        = cd.map (updateControlLine inputs) from rfl,
      getD_map_lt (updateControlLine inputs) cd i hi "" ""]
    exact updateControlLine_matched inputs _ hm
  · intro i hi hm
    rw [show (createCaseInjection cd pp inputs).2
        = pp.map (updatePhysLine inputs) from rfl,
      getD_map_lt (updatePhysLine inputs) pp i hi "" ""]
    exact updatePhysLine_matched inputs _ hm

/-- C2 witness: a two-line `controlDict` and a two-line
`physicalProperties`, with one matched line each. -/
theorem claim_C2_injection_frame_witness :
    (createCaseInjection ["// header", "    startTime 0;"]
        ["// head", "mu mu [ 1 -1 -1 0 0 0 0 ] 1e-3;"]
        ⟨"5", "10", "0.001", "2e-3", "0.71"⟩).1.length = 2
      ∧ (createCaseInjection ["// header", "    startTime 0;"]
          ["// head", "mu mu [ 1 -1 -1 0 0 0 0 ] 1e-3;"]
          ⟨"5", "10", "0.001", "2e-3", "0.71"⟩).2.length = 2
      ∧ (createCaseInjection ["// header", "    startTime 0;"]
          ["// head", "mu mu [ 1 -1 -1 0 0 0 0 ] 1e-3;"]
          ⟨"5", "10", "0.001", "2e-3", "0.71"⟩).1.getD 0 "" = "// header"
      ∧ (createCaseInjection ["// header", "    startTime 0;"]
          ["// head", "mu mu [ 1 -1 -1 0 0 0 0 ] 1e-3;"]
          ⟨"5", "10", "0.001", "2e-3", "0.71"⟩).2.getD 0 "" = "// head"
      ∧ (∃ p, (createCaseInjection ["// header", "    startTime 0;"]
          ["// head", "mu mu [ 1 -1 -1 0 0 0 0 ] 1e-3;"]
          ⟨"5", "10", "0.001", "2e-3", "0.71"⟩).1.getD 1 "" = p ++ ("5" ++ ";"))
      ∧ (∃ p, (createCaseInjection ["// header", "    startTime 0;"]
          ["// head", "mu mu [ 1 -1 -1 0 0 0 0 ] 1e-3;"]
          ⟨"5", "10", "0.001", "2e-3", "0.71"⟩).2.getD 1 "" = p ++ ("2e-3" ++ ";")) := by
  have h := claim_C2_injection_frame ["// header", "    startTime 0;"]
    ["// head", "mu mu [ 1 -1 -1 0 0 0 0 ] 1e-3;"] ⟨"5", "10", "0.001", "2e-3", "0.71"⟩
  exact ⟨h.1, h.2.1,
    h.2.2.1 0 (by decide) (by decide),
    h.2.2.2.1 0 (by decide) (by decide),
    h.2.2.2.2.1 1 (by decide) (by decide),
    h.2.2.2.2.2 1 (by decide) (by decide)⟩

/-- C3 counterexample: an indented matched line does not keep its leading
whitespace — `_update_control_dict` rewrites the whole line in canonical
form, and `_update_physical_properties` collapses the internal spacing. -/
theorem claim_C3_counterexample :
    update_control_dict ["    startTime 0;"] ⟨"5", "10", "0.001", "2e-3", "0.71"⟩
        = ["startTime       5;"]
      ∧ leadingWS "    startTime 0;" = [' ', ' ', ' ', ' ']
      ∧ leadingWS "startTime       5;" = []
      ∧ update_physical_properties ["    mu  mu 1e-3;"]
          ⟨"5", "10", "0.001", "2e-3", "0.71"⟩
        = ["mu mu 2e-3;"] := by decide

/-- C3 as amended: a matched configuration line does get the injected value
with the trailing semicolon kept (the rewritten line ends with `value;`),
but the line's leading whitespace and formatting are not preserved: a
matched `controlDict` line is replaced wholesale by a canonical line with
empty leading whitespace, and a matched `physicalProperties` line is rebuilt
by joining its whitespace-split tokens with single spaces, the last token
replaced by `value;`. -/
theorem claim_C3_injection_rewrites (lines : List String) (inputs : Inputs)
    (i : ℕ) (hi : i < lines.length) :
    (controlKeyMatch (lines.getD i "") = true →
      (∃ p, (update_control_dict lines inputs).getD i ""
          = p ++ (controlValue (lines.getD i "") inputs ++ ";"))
        ∧ leadingWS ((update_control_dict lines inputs).getD i "") = [])
      ∧ (physKeyMatch (lines.getD i "") = true →
          (update_physical_properties lines inputs).getD i ""
              = pyJoin " " ((pySplit (lines.getD i "")).dropLast
                  ++ [physValue (lines.getD i "") inputs ++ ";"])
            ∧ ∃ p, (update_physical_properties lines inputs).getD i ""
                = p ++ (physValue (lines.getD i "") inputs ++ ";")) := by
  constructor
  · intro hm
    rw [show update_control_dict lines inputs
        = lines.map (updateControlLine inputs) from rfl,
      getD_map_lt (updateControlLine inputs) lines i hi "" ""]
    exact ⟨updateControlLine_matched inputs _ hm,
      leadingWS_control_matched inputs _ hm⟩
  · intro hm
    rw [show update_physical_properties lines inputs
        = lines.map (updatePhysLine inputs) from rfl,
      getD_map_lt (updatePhysLine inputs) lines i hi "" ""]
    exact ⟨updatePhysLine_matched_eq inputs _ hm,
      updatePhysLine_matched inputs _ hm⟩

/-- C3 witness: an indented `startTime` line and a multi-space `mu` line. -/
theorem claim_C3_injection_rewrites_witness :
    ((∃ p, (update_control_dict ["    startTime 0;"]
        ⟨"5", "10", "0.001", "2e-3", "0.71"⟩).getD 0 "" = p ++ ("5" ++ ";"))
      ∧ leadingWS ((update_control_dict ["    startTime 0;"]
          ⟨"5", "10", "0.001", "2e-3", "0.71"⟩).getD 0 "") = [])
      ∧ ((update_physical_properties ["    mu  mu 1e-3;"]
            ⟨"5", "10", "0.001", "2e-3", "0.71"⟩).getD 0 ""
          = pyJoin " " ((pySplit "    mu  mu 1e-3;").dropLast ++ ["2e-3" ++ ";"])
        ∧ ∃ p, (update_physical_properties ["    mu  mu 1e-3;"]
            ⟨"5", "10", "0.001", "2e-3", "0.71"⟩).getD 0 "" = p ++ ("2e-3" ++ ";")) := by
  have h1 := claim_C3_injection_rewrites ["    startTime 0;"]
    ⟨"5", "10", "0.001", "2e-3", "0.71"⟩ 0 (by decide)
  have h2 := claim_C3_injection_rewrites ["    mu  mu 1e-3;"]
    ⟨"5", "10", "0.001", "2e-3", "0.71"⟩ 0 (by decide)
  exact ⟨h1.1 (by decide), h2.2 (by decide)⟩

/-- C5: a case directory with no subdirectory whose name passes the numeric
filter makes `post_process` report the no-time-directories error, return
`None`, and never create the CSV file. -/
theorem claim_C5_no_time_dirs (assets : String) (entries : List DirEntry)
    (L k : ℚ) (h : ∀ e ∈ entries, timeDirPred e = false) :
    post_process assets entries L k
      = { noTimeDirs := true, output := none, ret := none } := by
  unfold post_process
  rw [sortedTimeDirs_eq_nil entries h]
  rfl

/-- C5 witness: a case directory whose only entries are a non-numeric
subdirectory and a plain file. -/
theorem claim_C5_no_time_dirs_witness :
    post_process "assets" [⟨"system", true, none⟩, ⟨"case.foam", false, none⟩] 1 1
      = { noTimeDirs := true, output := none, ret := none } :=
  claim_C5_no_time_dirs "assets"
    [⟨"system", true, none⟩, ⟨"case.foam", false, none⟩] 1 1 (by decide)

/-- C8: `run_simulation` returns the full text accumulated from the child's
merged standard-output and standard-error stream, and two runs with the same
merged output give the same return value whatever their exit statuses are
(the exit status is never inspected). -/
theorem claim_C8_logs_regardless_of_exit (p q : SolverProcess) :
    run_simulation p = String.join p.mergedOutput
      ∧ (p.mergedOutput = q.mergedOutput → run_simulation p = run_simulation q) := by
  refine ⟨rfl, fun h => ?_⟩
  unfold run_simulation
  rw [h]

/-- C8 witness: a process exiting with status 0 and one exiting with status 1
but the same captured text yield the same returned logs. -/
theorem claim_C8_logs_regardless_of_exit_witness :
    run_simulation ⟨["a", "b"], 0⟩ = "ab"
      ∧ run_simulation ⟨["a", "b"], 0⟩ = run_simulation ⟨["a", "b"], 1⟩ := by
  have h := claim_C8_logs_regardless_of_exit ⟨["a", "b"], 0⟩ ⟨["a", "b"], 1⟩
  exact ⟨by rw [h.1]; rfl, h.2 rfl⟩

/-- C4 counterexample: on a case directory with one valid time directory,
`post_process` persists the CSV file but its Python return value is `None`,
not the series file path. -/
theorem claim_C4_counterexample :
    (post_process "assets" [⟨"0", true, some ["(", "10.0", ")"]⟩] 1 1).output
        = some ("assets/nusselt_numbers.csv",
            ⟨"Time,Average_h,Nusselt", [("0", 10, 10)]⟩)
      ∧ (post_process "assets" [⟨"0", true, some ["(", "10.0", ")"]⟩] 1 1).ret
        = none := by
  constructor
  · simp [post_process, sortedTimeDirs, timeDirPred, isTimeName, removeFirstDot,
      List.insertionSort, List.orderedInsert, rowOfEntry, timestepRow,
      parse_h_values, parseHLoop, pyStrip, pyFloat, pyStripChars, mantissaVal,
      splitOnChar, allDigits, digitsToNat, meanQ]
  · simp [post_process, sortedTimeDirs, timeDirPred, isTimeName, removeFirstDot,
      List.insertionSort, List.orderedInsert]

/-- C4 as amended: whenever the case directory has at least one time
subdirectory, `post_process` persists the CSV series file at the fixed path
`assets_dir/nusselt_numbers.csv`, but it returns `None` to its caller — the
series file path is not returned. -/
theorem claim_C4_csv_path_not_returned (assets : String)
    (entries : List DirEntry) (L k : ℚ)
    (h : ∃ e ∈ entries, timeDirPred e = true) :
    (∃ csv, (post_process assets entries L k).output
        = some (assets ++ "/nusselt_numbers.csv", csv))
      ∧ (post_process assets entries L k).ret = none := by
  have hb : (sortedTimeDirs entries).isEmpty = false :=
    isEmpty_false_of_ne_nil (sortedTimeDirs_ne_nil entries h)
  simp only [post_process]
  rw [hb, if_neg Bool.false_ne_true]
  exact ⟨⟨_, rfl⟩, rfl⟩

/-- C4 witness: one time directory named `10`. -/
theorem claim_C4_csv_path_not_returned_witness :
    (∃ csv, (post_process "assets" [⟨"10", true, none⟩] 1 1).output
        = some ("assets" ++ "/nusselt_numbers.csv", csv))
      ∧ (post_process "assets" [⟨"10", true, none⟩] 1 1).ret = none :=
  claim_C4_csv_path_not_returned "assets" [⟨"10", true, none⟩] 1 1
    ⟨⟨"10", true, none⟩, by simp, by decide⟩

/-- C6: with at least one time directory present, a timestep directory
lacking the field file is omitted from the emitted rows without an error —
the rows are exactly those computed from the field-bearing time directories,
each processed normally. -/
theorem claim_C6_missing_field_skipped (assets : String)
    (entries : List DirEntry) (L k : ℚ)
    (h : ∃ e ∈ entries, timeDirPred e = true) :
    (post_process assets entries L k).noTimeDirs = false
      ∧ ∃ csv, (post_process assets entries L k).output
          = some (assets ++ "/nusselt_numbers.csv", csv)
        ∧ csv.rows
          = ((sortedTimeDirs entries).filter fun e => e.field.isSome).filterMap
              fun e => rowOfEntry e L k := by
  have hb : (sortedTimeDirs entries).isEmpty = false :=
    isEmpty_false_of_ne_nil (sortedTimeDirs_ne_nil entries h)
  simp only [post_process]
  rw [hb, if_neg Bool.false_ne_true]
  exact ⟨rfl, ⟨_, rfl, filterMap_rowOf_filter _ L k⟩⟩

/-- C6 witness: time directory `1` lacks the field file, time directory `2`
has one. -/
theorem claim_C6_missing_field_skipped_witness :
    (post_process "assets"
        [⟨"2", true, some ["(", "10.0", ")"]⟩, ⟨"1", true, none⟩] 1 1).noTimeDirs
        = false
      ∧ ∃ csv, (post_process "assets"
            [⟨"2", true, some ["(", "10.0", ")"]⟩, ⟨"1", true, none⟩] 1 1).output
          = some ("assets" ++ "/nusselt_numbers.csv", csv)
        ∧ csv.rows
          = ((sortedTimeDirs
                [⟨"2", true, some ["(", "10.0", ")"]⟩, ⟨"1", true, none⟩]).filter
              fun e => e.field.isSome).filterMap fun e => rowOfEntry e 1 1 :=
  claim_C6_missing_field_skipped "assets"
    [⟨"2", true, some ["(", "10.0", ")"]⟩, ⟨"1", true, none⟩] 1 1
    ⟨⟨"1", true, none⟩, by simp, by decide⟩

/-- C7: discovery selects exactly the directory entries whose names pass the
numeric-name filter, the discovered list is ordered ascending by numeric
value, the CSV carries the header `Time,Average_h,Nusselt`, its rows are one
per valid timestep in discovery order, and the row times are ascending by
numeric value. -/
theorem claim_C7_discovery_and_order (assets : String)
    (entries : List DirEntry) (L k : ℚ)
    (h : ∃ e ∈ entries, timeDirPred e = true) :
    (∀ e, e ∈ sortedTimeDirs entries
        ↔ e ∈ entries ∧ e.isDir = true ∧ isTimeName e.name = true)
      ∧ List.Pairwise (fun a b => timeKey a.name ≤ timeKey b.name)
          (sortedTimeDirs entries)
      ∧ ∃ csv, (post_process assets entries L k).output
          = some (assets ++ "/nusselt_numbers.csv", csv)
        ∧ csv.header = "Time,Average_h,Nusselt"
        ∧ csv.rows = (sortedTimeDirs entries).filterMap (fun e => rowOfEntry e L k)
        ∧ List.Pairwise (fun r s : String × ℚ × ℚ => timeKey r.1 ≤ timeKey s.1)
            csv.rows := by
  have hb : (sortedTimeDirs entries).isEmpty = false :=
    isEmpty_false_of_ne_nil (sortedTimeDirs_ne_nil entries h)
  haveI : IsTotal DirEntry (fun a b => timeKey a.name ≤ timeKey b.name) :=
    ⟨fun a b => le_total _ _⟩
  haveI : IsTrans DirEntry (fun a b => timeKey a.name ≤ timeKey b.name) :=
    ⟨fun a b c hab hbc => le_trans hab hbc⟩
  have hsorted : List.Pairwise (fun a b => timeKey a.name ≤ timeKey b.name)
      (sortedTimeDirs entries) :=
    List.sorted_insertionSort _ _
  refine ⟨?_, hsorted, ?_⟩
  · intro e
    unfold sortedTimeDirs
    rw [(List.perm_insertionSort _ _).mem_iff, List.mem_filter]
    simp [timeDirPred, Bool.and_eq_true]
  · simp only [post_process]
    rw [hb, if_neg Bool.false_ne_true]
    refine ⟨_, rfl, rfl, rfl, ?_⟩
    rw [List.pairwise_filterMap]
    refine hsorted.imp ?_
    intro a b hab r hr s hs
    rw [rowOfEntry_fst a L k r (Option.mem_def.mp hr),
      rowOfEntry_fst b L k s (Option.mem_def.mp hs)]
    exact hab

/-- C7 witness: directories `10` and `2` — numeric order puts `2` first even
though lexicographic order would not. -/
theorem claim_C7_discovery_and_order_witness :
    (∀ e, e ∈ sortedTimeDirs [⟨"10", true, none⟩, ⟨"2", true, none⟩]
        ↔ e ∈ [⟨"10", true, none⟩, ⟨"2", true, none⟩]
          ∧ e.isDir = true ∧ isTimeName e.name = true)
      ∧ List.Pairwise (fun a b => timeKey a.name ≤ timeKey b.name)
          (sortedTimeDirs [⟨"10", true, none⟩, ⟨"2", true, none⟩])
      ∧ ∃ csv, (post_process "assets"
            [⟨"10", true, none⟩, ⟨"2", true, none⟩] 1 1).output
          = some ("assets" ++ "/nusselt_numbers.csv", csv)
        ∧ csv.header = "Time,Average_h,Nusselt"
        ∧ csv.rows = (sortedTimeDirs
            [⟨"10", true, none⟩, ⟨"2", true, none⟩]).filterMap
              (fun e => rowOfEntry e 1 1)
        ∧ List.Pairwise (fun r s : String × ℚ × ℚ => timeKey r.1 ≤ timeKey s.1)
            csv.rows :=
  claim_C7_discovery_and_order "assets" [⟨"10", true, none⟩, ⟨"2", true, none⟩]
    1 1 ⟨⟨"10", true, none⟩, by simp, by decide⟩

/-- C10: with at least one time directory but every timestep skipped (field
file absent or no value parsing), `post_process` still writes the CSV file
with exactly the header row and no data rows, reporting no error. -/
theorem claim_C10_header_only_csv (assets : String) (entries : List DirEntry)
    (L k : ℚ) (h1 : ∃ e ∈ entries, timeDirPred e = true)
    (h2 : ∀ e ∈ entries, timeDirPred e = true →
      e.field = none ∨ ∃ ls, e.field = some ls ∧ parse_h_values ls = []) :
    post_process assets entries L k
      = { noTimeDirs := false,
          output := some (assets ++ "/nusselt_numbers.csv",
            ⟨"Time,Average_h,Nusselt", []⟩),
          ret := none } := by
  have hb : (sortedTimeDirs entries).isEmpty = false :=
    isEmpty_false_of_ne_nil (sortedTimeDirs_ne_nil entries h1)
  have hrows : (sortedTimeDirs entries).filterMap (fun e => rowOfEntry e L k)
      = [] := by
    rw [List.filterMap_eq_nil_iff]
    intro e he
    have he2 : e ∈ entries.filter timeDirPred := by
      unfold sortedTimeDirs at he
      exact (List.perm_insertionSort _ _).mem_iff.mp he
    obtain ⟨hmem, hpred⟩ := List.mem_filter.mp he2
    rcases h2 e hmem hpred with hf | ⟨ls, hf, hp⟩
    · simp [rowOfEntry, hf]
    · simp [rowOfEntry, hf, timestepRow, hp]
  simp only [post_process]
  rw [hb, if_neg Bool.false_ne_true, hrows]

/-- C10 witness: time directory `0` has no field file and time directory
`0.5` has a field file with no parsable value. -/
theorem claim_C10_header_only_csv_witness :
    post_process "assets"
        [⟨"0", true, none⟩, ⟨"0.5", true, some ["(", "x", ")"]⟩] 1 1
      = { noTimeDirs := false,
          output := some ("assets" ++ "/nusselt_numbers.csv",
            ⟨"Time,Average_h,Nusselt", []⟩),
          ret := none } :=
  claim_C10_header_only_csv "assets"
    [⟨"0", true, none⟩, ⟨"0.5", true, some ["(", "x", ")"]⟩] 1 1
    ⟨⟨"0", true, none⟩, by simp, by decide⟩
    (by
      intro e he hp
      simp only [List.mem_cons, List.mem_singleton] at he
      rcases he with rfl | rfl | he
      · exact Or.inl rfl
      · exact Or.inr ⟨["(", "x", ")"], rfl, by decide⟩
      · exact absurd he (List.not_mem_nil e))

/-- C9: invoking the `post_process.py` entry point with an argument vector of
length other than 5 (script name plus four positional arguments) exits with a
non-zero code and runs no processing, producing no output. -/
theorem claim_C9_wrong_argc (argv : List String) (entries : List DirEntry)
    (h : argv.length ≠ 5) :
    (cliMain argv entries).exitCode ≠ 0 ∧ (cliMain argv entries).result = none := by
  unfold cliMain
  rw [if_pos h]
  exact ⟨one_ne_zero, rfl⟩

/-- C9 witness: invoking the script with no positional argument. -/
theorem claim_C9_wrong_argc_witness :
    (cliMain ["post_process.py"] []).exitCode ≠ 0
      ∧ (cliMain ["post_process.py"] []).result = none :=
  claim_C9_wrong_argc ["post_process.py"] [] (by decide)

end HeatLab
